import Mathlib

/-!
Verification of the video-to-product-image pipeline (`backend/app`).

Shallow embedding of `workflow.py` and the service modules it drives
(`services/gemini.py`, `services/video.py`, `services/segmentation.py`).
External collaborators (Gemini model calls, yt-dlp download, cv2 frame
decoding, rembg background removal) are modelled as oracles supplying
per-attempt outcomes; everything the repository's own code does with those
outcomes (retry loops, backoff delays, response normalisation, fallbacks,
stage sequencing) is embedded as executable Lean definitions.

Texts are `List Char`; provider-suggested delays are rationals (`ℚ`);
frame paths and image bytes are abstracted as `Nat` identifiers.
-/

/-- A Python exception as consumed by the error-classification code:
the `str(error)` and `repr(error)` texts. -/
structure PyErr where
  str : List Char
  rep : List Char
deriving DecidableEq

/-- Python `s.lower()`. -/
def toLowerStr (l : List Char) : List Char := l.map Char.toLower

/-- Helper for substring search: does `hay` start with `needle`? -/
def startsWithList : List Char → List Char → Bool
  | [], _ => true
  | _ :: _, [] => false
  | a :: as, b :: bs => a == b && startsWithList as bs

/-- Python `needle in hay` on strings. -/
def containsSub (needle : List Char) : List Char → Bool
  | [] => needle.isEmpty
  | c :: rest => startsWithList needle (c :: rest) || containsSub needle rest

/-- Python `s.strip()`: drop leading and trailing whitespace. -/
def stripSpaces (l : List Char) : List Char :=
  ((l.dropWhile Char.isWhitespace).reverse.dropWhile Char.isWhitespace).reverse

/-- Python `s.split(",")`: `"" ↦ [""]`, separators are not kept. -/
def splitComma : List Char → List (List Char)
  | [] => [[]]
  | c :: rest =>
    if c = ',' then [] :: splitComma rest
    else
      match splitComma rest with
      | [] => [[c]]
      | t :: ts => (c :: t) :: ts

/-- Python `s.isdigit()` (restricted to ASCII digits, the only ones the
model is prompted to return): non-empty and all digits. -/
def isDigitString (l : List Char) : Bool := !l.isEmpty && l.all Char.isDigit

/-- Value of a string of ASCII digits, i.e. Python `int(s)` on an
`isdigit` string. -/
def digitsToNat (l : List Char) : Nat :=
  l.foldl (fun a c => 10 * a + (c.toNat - '0'.toNat)) 0

/-- The text `f"{error_str} {error_repr}"` (both parts lowercased) that
`_is_quota_error` searches its retry-delay regex patterns over. -/
def fullErrorText (e : PyErr) : List Char :=
  toLowerStr e.str ++ ' ' :: toLowerStr e.rep

/-- Embedding of `_is_quota_error` (`services/gemini.py`).  The regex-based
retry-delay extraction block (the three `retry_patterns` combined with the
`float(...)` conversion) is abstracted as the parameter `rd`:
`rd text = some q` when one of the patterns matches `text` and the captured
group converts to the float `q`, and `none` otherwise.  Everything else —
which indicator substrings are searched in which of the two texts, and the
defaulting of the suggested delay to `20.0` — is embedded literally. -/
def is_quota_error (rd : List Char → Option ℚ) (e : PyErr) : Bool × Option ℚ :=
  let s := toLowerStr e.str
  let r := toLowerStr e.rep
  let isQ :=
    containsSub ("429".data) s || containsSub ("quota".data) s ||
    containsSub ("resource_exhausted".data) s || containsSub ("rate limit".data) s ||
    containsSub ("429".data) r || containsSub ("quota".data) r ||
    containsSub ("resource_exhausted".data) r
  if isQ then
    (true, some ((rd (fullErrorText e)).getD 20))
  else (false, none)

/-- Embedding of `_extract_first_integer` (`services/gemini.py`): the value
of the first maximal run of digit characters; `none` models the
`ValueError` raised when the text holds no digit. -/
def extract_first_integer (text : List Char) : Option Nat :=
  let digits := (text.dropWhile (fun c => !c.isDigit)).takeWhile Char.isDigit
  if digits.isEmpty then none else some (digitsToNat digits)

abbrev Frame := Nat
abbrev Bytes := Nat
abbrev SegErr := PyErr

deriving instance DecidableEq for Except

inductive VideoErr
  | durationExceeded
  | openFailed
  | zeroInterval
  | noFrames
deriving DecidableEq

inductive GeminiErr
  | noFrames
  | emptyResponse
  | emptyName
  | wrapped (e : PyErr)
  | requestFailed (e : PyErr) (quota : Bool) (retryAfter : Option ℚ)
  | parseFailed (text : List Char)
deriving DecidableEq

inductive Style
  | studio
  | lifestyle
  | creative
deriving DecidableEq

/-- Output location of one enhanced shot: `enhanced_{style}.png` or
`enhanced_fallback_{k}.png`. -/
inductive EPath
  | style (s : Style)
  | fallbackCopy (k : Nat)
deriving DecidableEq

/-- One enhanced shot: its output path and the image bytes written there. -/
abbrev Shot := EPath × Bytes

inductive Stage
  | frameExtraction
  | topFrameSelection
  | productIdentification
  | bestFrameSelection
  | segmentation
  | enhancement
deriving DecidableEq

/-- The ways the workflow can abort, each raised by exactly one node of
`workflow.py` (uncaught exceptions propagate out of `graph.invoke`). -/
inductive Fail
  | video (e : VideoErr)
  | topNoFrames
  | topFrames (e : GeminiErr)
  | identifyNoTopFrames
  | identify (e : GeminiErr)
  | bestNoTopFrames
  | segBoth (g : GeminiErr) (r : SegErr)
deriving DecidableEq

/-- Stage whose node raises a given failure. -/
def stageOf : Fail → Stage
  | .video _ => .frameExtraction
  | .topNoFrames => .topFrameSelection
  | .topFrames _ => .topFrameSelection
  | .identifyNoTopFrames => .productIdentification
  | .identify _ => .productIdentification
  | .bestNoTopFrames => .bestFrameSelection
  | .segBoth _ _ => .segmentation

/-- Python `int()` truncation toward zero of a rational. -/
def pyInt (q : ℚ) : ℤ := q.num.tdiv (q.den : ℤ)

/-- Python `int(q * n)` for a rational `q` and natural `n`, computed on the
exact fraction: `q·n = (q.num·n)/q.den` with `q.den > 0`, so truncation
toward zero is `(q.num·n).tdiv q.den` (see `pyIntMul_eq_pyInt_mul`). -/
def pyIntMul (q : ℚ) (n : Nat) : ℤ := (q.num * (n : ℤ)).tdiv (q.den : ℤ)

/-- Embedding of the `fps` normalisation and `frame_interval` computation
of `_sample_frames` (`services/video.py`): `fps = capture.get(...) or 30`,
`if fps <= 0: fps = 30`, `frame_interval = int(fps * rate)`, and the
`int(fps)` fallback when that is `<= 0`. -/
def frameInterval (fpsRaw : ℚ) (rate : Nat) : Nat :=
  let fps := if fpsRaw ≤ 0 then 30 else fpsRaw
  let k := (pyIntMul fps rate).toNat
  if k = 0 then (pyInt fps).toNat else k

/-- The `while saved_frames < max_frames` read loop of `_sample_frames`:
`videoFrames` are the decodable frames in order; a frame is persisted when
its index is a multiple of `interval`.  `zeroInterval` models the
`ZeroDivisionError` Python raises at `frame_index % frame_interval` when
the computed interval is `0`. -/
def sampleLoop (interval maxFrames : Nat) :
    Nat → Nat → List Frame → Except VideoErr (List Frame)
  | _, _, [] => .ok []
  | idx, saved, f :: rest =>
    if maxFrames ≤ saved then .ok []
    else if interval = 0 then .error .zeroInterval
    else if idx % interval = 0 then
      match sampleLoop interval maxFrames (idx + 1) (saved + 1) rest with
      | .ok l => .ok (f :: l)
      | .error e => .error e
    else sampleLoop interval maxFrames (idx + 1) saved rest

/-- Embedding of `_sample_frames` (`services/video.py`): open the capture,
run the sampling loop, and fail with `noFrames` when nothing was saved. -/
def sample_frames (videoFrames : List Frame) (fpsRaw : ℚ) (rate maxFrames : Nat)
    (opens : Bool) : Except VideoErr (List Frame) :=
  if !opens then .error .openFailed
  else
    match sampleLoop (frameInterval fpsRaw rate) maxFrames 0 0 videoFrames with
    | .error e => .error e
    | .ok l => if l.isEmpty then .error .noFrames else .ok l

/-- The `if duration and duration > max_video_duration` check of
`download_and_sample_frames`, Python truthiness included (a reported
duration of `0` or a missing duration skips the check). -/
def durationExceedsMax (duration : Option Nat) (maxDur : Nat) : Bool :=
  match duration with
  | some d => !(d == 0) && decide (maxDur < d)
  | none => false

/-- Embedding of `download_and_sample_frames` (`services/video.py`) after a
successful download: duration gate, then frame sampling.  The download
itself (yt-dlp) is an excluded collaborator; `duration` is the duration it
reports, `videoFrames`/`fpsRaw`/`opens` describe what cv2 finds in the
downloaded file. -/
def download_and_sample_frames (duration : Option Nat) (maxDur : Nat)
    (videoFrames : List Frame) (fpsRaw : ℚ) (rate : Nat) (opens : Bool)
    (maxFrames : Nat) : Except VideoErr (List Frame) :=
  if durationExceedsMax duration maxDur then .error .durationExceeded
  else sample_frames videoFrames fpsRaw rate maxFrames opens

/-- One iteration of the index-padding loop of
`GeminiService.select_top_frames`:
`if i not in indices and len(indices) < top_n: indices.append(i)`. -/
def padStep (topN : Nat) (acc : List Nat) (i : Nat) : List Nat :=
  if !acc.contains i && decide (acc.length < topN) then acc ++ [i] else acc

/-- The index-padding loop of `select_top_frames`:
`for i in range(len(frames)): ...`. -/
def padIndices (n topN : Nat) (inds : List Nat) : List Nat :=
  (List.range n).foldl (padStep topN) inds

/-- The parse step of `select_top_frames`:
`[int(x.strip()) for x in text.split(",") if x.strip().isdigit()]`. -/
def parsedIndices (text : List Char) : List Nat :=
  (splitComma text).filterMap fun x =>
    let y := stripSpaces x
    if isDigitString y then some (digitsToNat y) else none

/-- The validation tail of `select_top_frames`: keep in-range indices
(`0 <= idx` is automatic over `Nat`; the parse only produces non-negative
values), fall back to `range(min(top_n, len(frames)))` when none is valid,
then `[:top_n]`. -/
def keepValid (n topN : Nat) (inds : List Nat) : List Nat :=
  let valid := inds.filter (fun idx => decide (idx < n))
  let valid := if valid.isEmpty then List.range (min topN n) else valid
  valid.take topN

/-- The response-normalisation block of `select_top_frames` applied to the
parsed indices, for `n = len(frames)`: pad or truncate to `topN`, then the
validation tail. -/
def select_top_frames_norm (n topN : Nat) (parsed : List Nat) : List Nat :=
  let inds :=
    if parsed.length = topN then parsed
    else if parsed.length < topN then padIndices n topN parsed
    else parsed.take topN
  keepValid n topN inds

/-- Embedding of `GeminiService.select_top_frames` for `n` frames: the
`len(frames) <= top_n` early return, one model call (`call` is its
outcome: the stripped response text, or the exception the SDK raised),
and the normalisation of the response.  The function's own
`if not frames` guard is subsumed by `n = 0 ≤ topN` in the workflow the
node checks emptiness first, so that guard is unreachable there. -/
def select_top_frames (n topN : Nat) (call : Except PyErr (List Char)) :
    Except GeminiErr (List Nat) :=
  if n = 0 then .error .noFrames
  else if n ≤ topN then .ok (List.range n)
  else
    match call with
    | .error e => .error (.wrapped e)
    | .ok t => .ok (select_top_frames_norm n topN (parsedIndices (stripSpaces t)))

/-- Embedding of `GeminiService.identify_product`: one model call, then
`(response.text or "").strip()` with the empty-name fatal error.  Its
`if not frames` guard is unreachable from the workflow (the node checks
first) and is omitted. -/
def identify_product (call : Except PyErr (List Char)) : Except GeminiErr (List Char) :=
  match call with
  | .error e => .error (.wrapped e)
  | .ok t =>
    let name := stripSpaces t
    if name.isEmpty then .error .emptyName else .ok name

/-- Result of a retrying provider call: its outcome, the sequence of
`time.sleep` delays performed between attempts, and how many attempts were
actually made. -/
structure RetryOut (α : Type) where
  res : α
  sleeps : List ℚ
  calls : Nat
deriving DecidableEq

/-- Python truthiness of the optional retry delay (`None` and `0.0` are
falsy). -/
def truthyOpt (ra : Option ℚ) : Bool :=
  match ra with
  | some v => !(v == 0)
  | none => false

/-- The retry loop of `GeminiService.select_best_frame`: any failure before
the final attempt sleeps (provider-suggested delay when quota-classified
and truthy, else `5.0 * (attempt + 1)`) and retries; the final failure
raises a `GeminiServiceError` carrying the quota classification.  The case
`rem = 0` at entry models `range(0)` falling through to the
`if not response` empty-response error. -/
def sbfLoop (rd : List Char → Option ℚ) (attempts : Nat → Except PyErr (List Char)) :
    Nat → Nat → RetryOut (Except GeminiErr (List Char))
  | _, 0 => ⟨.error .emptyResponse, [], 0⟩
  | attempt, rem + 1 =>
    match attempts attempt with
    | .ok t => ⟨.ok t, [], 1⟩
    | .error e =>
      if rem = 0 then
        let c := is_quota_error rd e
        ⟨.error (.requestFailed e c.1 c.2), [], 1⟩
      else
        let c := is_quota_error rd e
        let delay := if c.1 && truthyOpt c.2 then c.2.getD 0 else 5 * ((attempt : ℚ) + 1)
        let rest := sbfLoop rd attempts (attempt + 1) rem
        ⟨rest.res, delay :: rest.sleeps, rest.calls + 1⟩

/-- Embedding of `GeminiService.select_best_frame`: the retry loop, then
`int(_extract_first_integer((response.text or "").strip()))`; a digit-free
response raises (`parseFailed`).  `attempts i` is the outcome of the `i`-th
`generate_content` call.  The `if not frames` guard is unreachable from the
workflow (the node checks first) and is omitted. -/
def select_best_frame (rd : List Char → Option ℚ)
    (attempts : Nat → Except PyErr (List Char)) (maxRetries : Nat) :
    RetryOut (Except GeminiErr Nat) :=
  let out := sbfLoop rd attempts 0 maxRetries
  { res :=
      match out.res with
      | .error g => .error g
      | .ok t =>
        match extract_first_integer (stripSpaces t) with
        | some nn => .ok nn
        | none => .error (.parseFailed t)
    sleeps := out.sleeps
    calls := out.calls }

/-- Embedding of `_make_best_frame_node` (`workflow.py`): catch any
`GeminiServiceError` and fall back to index `0`; then the range check
(`index < 0` cannot fire: the parsed index is a digit run, hence
non-negative) with fallback to `0`; finally `top_frames[index]`. -/
def best_frame_node (rd : List Char → Option ℚ) (topFrames : List Frame)
    (attempts : Nat → Except PyErr (List Char)) : Except Fail Frame :=
  if topFrames.isEmpty then .error .bestNoTopFrames
  else
    let index : Nat :=
      match (select_best_frame rd attempts 3).res with
      | .ok n => n
      | .error _ => 0
    let index := if topFrames.length ≤ index then 0 else index
    .ok (topFrames.getD index 0)

/-- The retry loop of `GeminiService.segment_product`: no sleeping, retry
only while attempts remain, raise on the final failure with the quota
classification attached.  The second component counts `generate_content`
calls made. -/
def segLoop (rd : List Char → Option ℚ) (attempts : Nat → Except PyErr Bytes) :
    Nat → Nat → (Except GeminiErr Bytes) × Nat
  | _, 0 => (.error .emptyResponse, 0)
  | attempt, rem + 1 =>
    match attempts attempt with
    | .ok b => (.ok b, 1)
    | .error e =>
      if rem = 0 then
        let c := is_quota_error rd e
        (.error (.requestFailed e c.1 c.2), 1)
      else
        let r := segLoop rd attempts (attempt + 1) rem
        (r.1, r.2 + 1)

/-- Embedding of `GeminiService.segment_product` with its call-count
trace.  `attempts i` is the outcome of the `i`-th `generate_content` call
(successful image-byte extraction included). -/
def segment_product (rd : List Char → Option ℚ) (attempts : Nat → Except PyErr Bytes)
    (maxRetries : Nat) : (Except GeminiErr Bytes) × Nat :=
  segLoop rd attempts 0 maxRetries

/-- Embedding of `_make_segmentation_node` (`workflow.py`): Gemini
segmentation with `max_retries=1`; on any failure, the rembg fallback on
the same `best_frame_path`; if that also fails, a fatal error carrying
both underlying errors.  Returns (result, Gemini calls, rembg calls). -/
def segmentation_node (rd : List Char → Option ℚ) (bestFrame : Frame)
    (primary : Frame → Nat → Except PyErr Bytes)
    (rembg : Frame → Except SegErr Bytes) : Except Fail Bytes × Nat × Nat :=
  match segment_product rd (primary bestFrame) 1 with
  | (.ok b, pc) => (.ok b, pc, 0)
  | (.error g, pc) =>
    match rembg bestFrame with
    | .ok rb => (.ok rb, pc, 1)
    | .error se => (.error (.segBoth g se), pc, 1)

/-- The retry loop of `GeminiService.generate_enhanced_shot`
(`for attempt in range(3)`): only a quota-classified failure with attempts
remaining sleeps (truthy provider-suggested delay, else
`20.0 * (attempt + 1)`) and retries; any other failure raises at once. -/
def gesLoop (rd : List Char → Option ℚ) (attempts : Nat → Except PyErr Bytes) :
    Nat → Nat → RetryOut (Except GeminiErr Bytes)
  | _, 0 => ⟨.error .emptyResponse, [], 0⟩
  | attempt, rem + 1 =>
    match attempts attempt with
    | .ok b => ⟨.ok b, [], 1⟩
    | .error e =>
      let c := is_quota_error rd e
      if c.1 && decide (0 < rem) then
        let delay := if truthyOpt c.2 then c.2.getD 0 else 20 * ((attempt : ℚ) + 1)
        let rest := gesLoop rd attempts (attempt + 1) rem
        ⟨rest.res, delay :: rest.sleeps, rest.calls + 1⟩
      else ⟨.error (.requestFailed e c.1 c.2), [], 1⟩

/-- Embedding of `GeminiService.generate_enhanced_shot`: three attempts,
quota-only retry.  `attempts i` is the outcome of the `i`-th
`generate_content` call (successful image-byte extraction included). -/
def generate_enhanced_shot (rd : List Char → Option ℚ)
    (attempts : Nat → Except PyErr Bytes) : RetryOut (Except GeminiErr Bytes) :=
  gesLoop rd attempts 0 3

/-- One iteration of the style loop of `_make_enhancement_node`: break
once 2 shots exist (modelled as a skip, which agrees with `break` because
the shot list never shrinks), append the generated shot on success, skip
the style on any exception.  The second component records the styles
actually attempted. -/
def enhStep (genRes : Style → Except GeminiErr Bytes)
    (acc : List Shot × List Style) (st : Style) : List Shot × List Style :=
  if 2 ≤ acc.1.length then acc
  else
    match genRes st with
    | .ok b => (acc.1 ++ [(EPath.style st, b)], acc.2 ++ [st])
    | .error _ => (acc.1, acc.2 ++ [st])

/-- The style loop of `_make_enhancement_node` over the fixed order
`("studio", "lifestyle", "creative")`. -/
def enhanceStyles (genRes : Style → Except GeminiErr Bytes) : List Shot × List Style :=
  [Style.studio, Style.lifestyle, Style.creative].foldl (enhStep genRes) ([], [])

/-- The `while len(enhanced_paths) < 2` padding loop of
`_make_enhancement_node`: copy the first existing shot (or the segmented
image when none exists) to `enhanced_fallback_{len+1}.png`.  The loop body
grows the list each iteration, so a fuel of 2 covers every reachable
input. -/
def padWhile (segBytes : Bytes) : Nat → List Shot → List Shot
  | 0, shots => shots
  | fuel + 1, shots =>
    if shots.length < 2 then
      let src :=
        match shots.head? with
        | some s => s.2
        | none => segBytes
      padWhile segBytes fuel (shots ++ [(EPath.fallbackCopy (shots.length + 1), src)])
    else shots

/-- Embedding of `_make_enhancement_node` (`workflow.py`), given that the
segmented image exists with content `segBytes`: the style loop over
`generate_enhanced_shot`, then the fallback padding to exactly 2 shots.
Returns the `enhanced_shots` list and the styles attempted. -/
def enhancement_node (rd : List Char → Option ℚ) (segBytes : Bytes)
    (gen : Style → Nat → Except PyErr Bytes) : List Shot × List Style :=
  let r := enhanceStyles (fun s => (generate_enhanced_shot rd (gen s)).res)
  (padWhile segBytes 2 r.1, r.2)

/-- Embedding of `_make_select_top_frames_node` (`workflow.py`): the
`ValueError` guard on an empty frame list, the `select_top_frames` call,
and `all_frames[idx]` indexing (the selected indices are always in range;
`getD` is used with a dummy default). -/
def top_frames_node (frames : List Frame) (call : Except PyErr (List Char)) :
    Except Fail (List Frame) :=
  if frames.isEmpty then .error .topNoFrames
  else
    match select_top_frames frames.length 3 call with
    | .error g => .error (.topFrames g)
    | .ok inds => .ok (inds.map fun i => frames.getD i 0)

/-- Embedding of `_make_identify_product_node` (`workflow.py`). -/
def identify_node (topFrames : List Frame) (call : Except PyErr (List Char)) :
    Except Fail (List Char) :=
  if topFrames.isEmpty then .error .identifyNoTopFrames
  else
    match identify_product call with
    | .error g => .error (.identify g)
    | .ok name => .ok name

/-- The settings the workflow reads (`config.py`): defaults are
`FRAME_SAMPLE_RATE=2`, `MAX_VIDEO_DURATION=300`. -/
structure Settings where
  frameSampleRate : Nat
  maxVideoDuration : Nat
deriving DecidableEq

/-- The collaborators of one job, as outcome oracles: what yt-dlp reports,
what cv2 decodes, and the outcome of each provider call the stages can
make. -/
structure Collab where
  duration : Option Nat
  opens : Bool
  fps : ℚ
  videoFrames : List Frame
  topCall : Except PyErr (List Char)
  identifyCall : Except PyErr (List Char)
  bestCalls : Nat → Except PyErr (List Char)
  segCalls : Frame → Nat → Except PyErr Bytes
  rembg : Frame → Except SegErr Bytes
  genCalls : Style → Nat → Except PyErr Bytes

/-- The `WorkflowState` fields a completed job carries. -/
structure FinalState where
  sampledFrames : List Frame
  topFrames : List Frame
  productName : List Char
  bestFramePath : Frame
  segmentedBytes : Bytes
  enhancedShots : List Shot
deriving DecidableEq

/-- The fixed stage order of the graph built in `run_workflow`. -/
def allStages : List Stage :=
  [.frameExtraction, .topFrameSelection, .productIdentification,
   .bestFrameSelection, .segmentation, .enhancement]

/-- Embedding of `run_workflow` (`workflow.py`): the `StateGraph` is a
single chain `START → extract_frames → select_top_frames →
identify_product → select_best_frame → segment_image → enhance_images →
END`, i.e. sequential composition short-circuiting on the first uncaught
exception.  The first component is the trace of stages entered. -/
def run_workflow (rd : List Char → Option ℚ) (st : Settings) (c : Collab) :
    List Stage × Except Fail FinalState :=
  match download_and_sample_frames c.duration st.maxVideoDuration c.videoFrames
      c.fps st.frameSampleRate c.opens 15 with
  | .error e => ([.frameExtraction], .error (.video e))
  | .ok frames =>
    match top_frames_node frames c.topCall with
    | .error f => ([.frameExtraction, .topFrameSelection], .error f)
    | .ok tf =>
      match identify_node tf c.identifyCall with
      | .error f =>
        ([.frameExtraction, .topFrameSelection, .productIdentification], .error f)
      | .ok name =>
        match best_frame_node rd tf c.bestCalls with
        | .error f =>
          ([.frameExtraction, .topFrameSelection, .productIdentification,
            .bestFrameSelection], .error f)
        | .ok best =>
          match (segmentation_node rd best c.segCalls c.rembg).1 with
          | .error f =>
            ([.frameExtraction, .topFrameSelection, .productIdentification,
              .bestFrameSelection, .segmentation], .error f)
          | .ok segB =>
            let shots := (enhancement_node rd segB c.genCalls).1
            (allStages, .ok ⟨frames, tf, name, best, segB, shots⟩)

/-! ### Concrete fixtures used by witnesses and counterexamples -/

/-- A retry-delay extractor whose patterns never match. -/
def rdNone : List Char → Option ℚ := fun _ => none

/-- A retry-delay extractor that always parses a 7-second delay. -/
def rdSeven : List Char → Option ℚ := fun _ => some 7

/-- A provider failure with no quota indicator. -/
def boomErr : PyErr := ⟨"boom".data, "boom".data⟩

/-- A provider failure carrying a quota indicator. -/
def quotaErr : PyErr := ⟨"quota exceeded".data, "q".data⟩

/-- The rational `1/2` in normalised form (numerator and denominator are
literals, so the embedding computes on it). -/
def halfQ : ℚ := ⟨1, 2, by norm_num, by norm_num⟩

/-- A best-frame call oracle failing twice, then answering `"2"`. -/
def attsTwoFailOk : Nat → Except PyErr (List Char) :=
  fun i => if i < 2 then .error quotaErr else .ok ("2".data)

/-- An enhancement oracle where only the lifestyle style succeeds. -/
def genLifeOnly : Style → Nat → Except PyErr Bytes :=
  fun s _ =>
    match s with
    | .lifestyle => .ok 42
    | _ => .error boomErr

/-- The backoff delay `select_best_frame` sleeps after the failure `e` of
0-based attempt `attempt` (the expression on line 221 of
`services/gemini.py`): the provider-suggested delay when the failure is
quota-classified with a truthy (present and non-zero) suggestion, else
`5.0 * (attempt + 1)`. -/
def bfDelay (rd : List Char → Option ℚ) (e : PyErr) (attempt : Nat) : ℚ :=
  let c := is_quota_error rd e
  if c.1 && truthyOpt c.2 then c.2.getD 0 else 5 * ((attempt : ℚ) + 1)

/-- The backoff delay `generate_enhanced_shot` sleeps after the
quota-classified failure `e` of 0-based attempt `attempt`: the truthy
provider-suggested delay, else `20.0 * (attempt + 1)`. -/
def enhDelay (rd : List Char → Option ℚ) (e : PyErr) (attempt : Nat) : ℚ :=
  let c := is_quota_error rd e
  if truthyOpt c.2 then c.2.getD 0 else 20 * ((attempt : ℚ) + 1)

/-- An attempt oracle failing with `e0`, then `e1`, then answering
`third`. -/
def sbfOracle (e0 e1 : PyErr) (third : Except PyErr (List Char)) :
    Nat → Except PyErr (List Char) :=
  fun i => if i = 0 then .error e0 else if i = 1 then .error e1 else third

/-- An attempt oracle for image generation failing with `e0`, then `e1`,
then answering `third`. -/
def gesOracle (e0 e1 : PyErr) (third : Except PyErr Bytes) :
    Nat → Except PyErr Bytes :=
  fun i => if i = 0 then .error e0 else if i = 1 then .error e1 else third

/-- The default settings of `config.py`. -/
def stDefault : Settings := ⟨2, 300⟩

/-- A collaborator bundle on which every stage succeeds: a 10-second video
with one decodable frame at fps 30. -/
def cGood : Collab :=
  { duration := some 10
    opens := true
    fps := 30
    videoFrames := [1]
    topCall := .ok ("0".data)
    identifyCall := .ok (" Widget ".data)
    bestCalls := fun _ => .ok ("0".data)
    segCalls := fun _ _ => .ok 50
    rembg := fun _ => .error boomErr
    genCalls := fun _ _ => .ok 5 }

/-- A collaborator bundle for a valid 4-second video with four decodable
frames at fps 1 whose TopFrameSelection model call fails. -/
def cBad : Collab :=
  { cGood with
    duration := some 4
    videoFrames := [1, 2, 3, 4]
    fps := 1
    topCall := .error boomErr }

/-! ### Helper lemmas shared between claims -/

/-- `pyIntMul` is exactly `int(q * n)`: for a non-negative rational the
truncation of the product equals the truncated exact fraction
`(q.num * n) / q.den`. -/
theorem pyIntMul_eq_pyInt_mul (q : ℚ) (n : Nat) (hq : 0 ≤ q) :
    pyIntMul q n = pyInt (q * (n : ℚ)) := by
  have hqn : 0 ≤ q.num := Rat.num_nonneg.mpr hq
  have hprod : 0 ≤ q * (n : ℚ) := by positivity
  calc pyIntMul q n
      = (q.num * (n : ℤ)) / (q.den : ℤ) :=
        Int.tdiv_eq_ediv (by positivity) (by positivity)
    _ = ⌊(((q.num * (n : ℤ)) : ℤ) : ℚ) / ((q.den : ℕ) : ℚ)⌋ :=
        (Rat.floor_intCast_div_natCast _ _).symm
    _ = ⌊q * (n : ℚ)⌋ := by
        congr 1
        push_cast
        conv_rhs => rw [← Rat.num_div_den q]
        ring
    _ = pyInt (q * (n : ℚ)) := by
        rw [pyInt, Int.tdiv_eq_ediv (Rat.num_nonneg.mpr hprod) (by positivity),
          Rat.floor_def]

theorem getD_mem : ∀ (l : List Nat) (i d : Nat), i < l.length → l.getD i d ∈ l := by
  intro l
  induction l with
  | nil => intro i d h; simp at h
  | cons a t ih =>
    intro i d h
    cases i with
    | zero => simp [List.getD]
    | succ j =>
      have := ih j d (by simpa using h)
      simpa [List.getD] using Or.inr this

theorem not_quota_none (rd : List Char → Option ℚ) (e : PyErr)
    (h : (is_quota_error rd e).1 = false) : is_quota_error rd e = (false, none) := by
  simp only [is_quota_error] at h ⊢
  split at h
  next hq => simp at h
  next hq => simp [hq]

theorem quota_some (rd : List Char → Option ℚ) (e : PyErr)
    (h : (is_quota_error rd e).1 = true) :
    is_quota_error rd e = (true, some ((rd (fullErrorText e)).getD 20)) := by
  simp only [is_quota_error] at h ⊢
  split at h
  next hq => simp [hq]
  next hq => simp at h

/-! ### C9: quota classification -/

/-- Claim C9 (corrected): the quota flag is exactly the disjunction of
indicator tests the code performs — the four indicators searched in the
lowercased message, but only `429`/`quota`/`resource_exhausted` (not
`rate limit`) searched in the lowercased repr; when the flag is set the
suggested delay is never absent (the parsed value when a retry pattern
matched, else `20.0`), and otherwise the result is `(False, None)`. -/
theorem quota_classifier_spec (rd : List Char → Option ℚ) (e : PyErr) :
    ((is_quota_error rd e).1 = true ↔
      (containsSub ("429".data) (toLowerStr e.str) = true ∨
       containsSub ("quota".data) (toLowerStr e.str) = true ∨
       containsSub ("resource_exhausted".data) (toLowerStr e.str) = true ∨
       containsSub ("rate limit".data) (toLowerStr e.str) = true ∨
       containsSub ("429".data) (toLowerStr e.rep) = true ∨
       containsSub ("quota".data) (toLowerStr e.rep) = true ∨
       containsSub ("resource_exhausted".data) (toLowerStr e.rep) = true)) ∧
    ((is_quota_error rd e).1 = true →
      (is_quota_error rd e).2 = some ((rd (fullErrorText e)).getD 20)) ∧
    ((is_quota_error rd e).1 = false → (is_quota_error rd e).2 = none) := by
  have hflag : (is_quota_error rd e).1 =
      (containsSub ("429".data) (toLowerStr e.str) ||
       containsSub ("quota".data) (toLowerStr e.str) ||
       containsSub ("resource_exhausted".data) (toLowerStr e.str) ||
       containsSub ("rate limit".data) (toLowerStr e.str) ||
       containsSub ("429".data) (toLowerStr e.rep) ||
       containsSub ("quota".data) (toLowerStr e.rep) ||
       containsSub ("resource_exhausted".data) (toLowerStr e.rep)) := by
    simp only [is_quota_error]
    split
    next hq => exact hq.symm
    next hq => exact (Bool.eq_false_iff.mpr fun hc => hq (hc ▸ rfl)).symm
  refine ⟨?_, ?_, ?_⟩
  · rw [hflag]
    simp only [Bool.or_eq_true]
    tauto
  · intro h
    rw [quota_some rd e h]
  · intro h
    rw [not_quota_none rd e h]

/-- Claim C9, counterexample to the claim as stated: an exception whose
repr (but not whose message) contains `rate limit` — and no other
indicator — is classified as non-quota with no delay, although the claim
requires `(True, delay)` for a `rate limit` indicator in message *or*
repr. -/
theorem quota_classifier_cex :
    is_quota_error (fun _ => none) ⟨"boom".data, "a rate limit was hit".data⟩ =
      (false, none) ∧
    containsSub ("rate limit".data)
      (toLowerStr ("a rate limit was hit".data)) = true := by
  exact ⟨by decide, by decide⟩

/-- Witness for `quota_classifier_spec` at a concrete quota-classified
error with no parseable delay: the suggested delay defaults to `20`. -/
theorem quota_classifier_spec_witness :
    (is_quota_error (fun _ => none) ⟨"quota hit".data, "x".data⟩).2 = some 20 :=
  (quota_classifier_spec (fun _ => none) ⟨"quota hit".data, "x".data⟩).2.1 (by decide)

/-! ### C10: first-integer extraction in best-frame selection -/

theorem digit_run_ne_nil :
    ∀ t : List Char, (∃ c ∈ t, c.isDigit = true) →
      ((t.dropWhile fun c => !c.isDigit).takeWhile Char.isDigit) ≠ [] := by
  intro t
  induction t with
  | nil => rintro ⟨c, hc, _⟩; simp at hc
  | cons a t ih =>
    rintro ⟨c, hc, hd⟩
    by_cases ha : a.isDigit
    · simp [List.dropWhile_cons, List.takeWhile_cons, ha]
    · rcases List.mem_cons.mp hc with rfl | hct
      · exact absurd hd ha
      · simpa [List.dropWhile_cons, ha] using ih ⟨c, hct, hd⟩

theorem digit_run_nil :
    ∀ t : List Char, (∀ c ∈ t, c.isDigit = false) →
      (t.dropWhile fun c => !c.isDigit) = [] := by
  intro t
  induction t with
  | nil => intro _; rfl
  | cons a t ih =>
    intro h
    have ha := h a (List.mem_cons_self a t)
    simpa [List.dropWhile_cons, ha] using ih fun c hc => h c (List.mem_cons_of_mem a hc)

/-- Claim C10 (confirmed): `_extract_first_integer` takes the first maximal
run of digit characters, ignoring sign and surrounding text — so any text
containing a digit parses to a (non-negative, by construction over `Nat`)
integer, `"-1"` parses to the index `1`, a digit-free text raises — and
`select_best_frame` on a successful digit-containing response returns that
non-negative index. -/
theorem extract_first_integer_spec :
    (∀ t : List Char, (∃ c ∈ t, c.isDigit = true) →
      ∃ nn, extract_first_integer t = some nn) ∧
    extract_first_integer ("-1".data) = some 1 ∧
    (∀ t : List Char, (∀ c ∈ t, c.isDigit = false) →
      extract_first_integer t = none) ∧
    (∀ (rd : List Char → Option ℚ) (t : List Char),
      (∃ c ∈ stripSpaces t, c.isDigit = true) →
      ∃ nn, (select_best_frame rd (fun _ => Except.ok t) 3).res = Except.ok nn) ∧
    (∀ rd : List Char → Option ℚ,
      (select_best_frame rd (fun _ => Except.ok ("-1".data)) 3).res = Except.ok 1) := by
  have hsome : ∀ t : List Char, (∃ c ∈ t, c.isDigit = true) →
      ∃ nn, extract_first_integer t = some nn := by
    intro t ht
    have := digit_run_ne_nil t ht
    simp only [extract_first_integer]
    rw [if_neg (by simpa [List.isEmpty_iff] using this)]
    exact ⟨_, rfl⟩
  refine ⟨hsome, by decide, ?_, ?_, ?_⟩
  · intro t ht
    have := digit_run_nil t ht
    simp [extract_first_integer, this]
  · intro rd t ht
    obtain ⟨nn, hnn⟩ := hsome (stripSpaces t) ht
    refine ⟨nn, ?_⟩
    simp [select_best_frame, sbfLoop, hnn]
  · intro rd
    rfl

/-- Witness for `extract_first_integer_spec` at a concrete text: a reply
with surrounding prose still yields an integer. -/
theorem extract_first_integer_spec_witness :
    ∃ nn, extract_first_integer ("answer: 12".data) = some nn :=
  extract_first_integer_spec.1 ("answer: 12".data) (by decide)

/-! ### C3 / C8: top-frame selection normalisation -/

theorem take_ne_nil {α : Type} {l : List α} {k : Nat} (hk : 0 < k) (hl : l ≠ []) :
    l.take k ≠ [] := by
  cases l with
  | nil => exact absurd rfl hl
  | cons a t =>
    cases k with
    | zero => omega
    | succ k => simp [List.take]

theorem padStep_stable (topN : Nat) (l : List Nat) :
    ∀ acc : List Nat, topN ≤ acc.length → l.foldl (padStep topN) acc = acc := by
  induction l with
  | nil => intro acc _; rfl
  | cons a l ih =>
    intro acc h
    have hd : decide (acc.length < topN) = false := decide_eq_false (Nat.not_lt.mpr h)
    rw [List.foldl_cons, show padStep topN acc a = acc by simp [padStep, hd]]
    exact ih acc h

theorem padIndices_nil_eq : ∀ n : Nat, 3 ≤ n → padIndices n 3 [] = [0, 1, 2] := by
  intro n hn
  obtain ⟨k, rfl⟩ := Nat.exists_eq_add_of_le hn
  clear hn
  induction k with
  | zero => rfl
  | succ k ih =>
    simp only [padIndices] at ih ⊢
    rw [show 3 + (k + 1) = (3 + k) + 1 by omega, List.range_succ, List.foldl_append, ih]
    exact padStep_stable 3 [3 + k] [0, 1, 2] (by simp)

theorem keepValid_length (n topN : Nat) (inds : List Nat) :
    (keepValid n topN inds).length ≤ topN := by
  simp only [keepValid]
  rw [List.length_take]
  exact Nat.min_le_left _ _

theorem keepValid_mem {n topN : Nat} {inds : List Nat} :
    ∀ x ∈ keepValid n topN inds, x < n := by
  intro x hx
  simp only [keepValid] at hx
  have hx' := List.mem_of_mem_take hx
  split at hx'
  next => exact lt_of_lt_of_le (List.mem_range.mp hx') (min_le_right _ _)
  next => exact of_decide_eq_true (List.mem_filter.mp hx').2

theorem keepValid_ne_nil {n topN : Nat} (hn : 0 < n) (ht : 0 < topN)
    (inds : List Nat) : keepValid n topN inds ≠ [] := by
  simp only [keepValid]
  apply take_ne_nil ht
  split
  next =>
    simp only [ne_eq, List.range_eq_nil]
    omega
  next he =>
    intro hv
    rw [hv] at he
    simp at he

theorem select_top_frames_norm_length (n topN : Nat) (p : List Nat) :
    (select_top_frames_norm n topN p).length ≤ topN := by
  simp only [select_top_frames_norm]
  exact keepValid_length n topN _

theorem select_top_frames_norm_mem {n topN : Nat} {p : List Nat} :
    ∀ x ∈ select_top_frames_norm n topN p, x < n := by
  simp only [select_top_frames_norm]
  exact fun x hx => keepValid_mem x hx

theorem select_top_frames_norm_ne_nil {n topN : Nat} (hn : 0 < n) (ht : 0 < topN)
    (p : List Nat) : select_top_frames_norm n topN p ≠ [] := by
  simp only [select_top_frames_norm]
  exact keepValid_ne_nil hn ht _

theorem isEmpty_false_of_ne_nil {α : Type} {l : List α} (h : l ≠ []) :
    l.isEmpty = false := by
  cases l with
  | nil => exact absurd rfl h
  | cons a t => rfl

theorem select_top_frames_ok {n : Nat} {call : Except PyErr (List Char)}
    {inds : List Nat} (h : select_top_frames n 3 call = Except.ok inds) :
    inds ≠ [] ∧ inds.length ≤ 3 ∧ ∀ i ∈ inds, i < n := by
  simp only [select_top_frames] at h
  split at h
  next => exact absurd h (by simp)
  next hn0 =>
    split at h
    next hle =>
      injection h with h'
      subst h'
      refine ⟨?_, ?_, fun i hi => List.mem_range.mp hi⟩
      · simpa [List.range_eq_nil] using hn0
      · simpa using hle
    next hgt =>
      split at h
      next e heq => exact absurd h (by simp)
      next t heq =>
        injection h with h'
        subst h'
        exact ⟨select_top_frames_norm_ne_nil (by omega) (by omega) _,
          select_top_frames_norm_length _ _ _,
          fun i hi => select_top_frames_norm_mem i hi⟩

theorem top_frames_node_ok {frames : List Frame} {call : Except PyErr (List Char)}
    {tf : List Frame} (h : top_frames_node frames call = Except.ok tf) :
    tf ≠ [] ∧ tf.length ≤ 3 ∧ ∀ x ∈ tf, x ∈ frames := by
  simp only [top_frames_node] at h
  split at h
  next => exact absurd h (by simp)
  next hne =>
    split at h
    next g heq => exact absurd h (by simp)
    next inds heq =>
      injection h with h'
      subst h'
      obtain ⟨hni, hlen, hmem⟩ := select_top_frames_ok heq
      refine ⟨?_, by simpa using hlen, ?_⟩
      · simpa using hni
      · intro x hx
        obtain ⟨i, hi, rfl⟩ := List.mem_map.mp hx
        exact getD_mem frames i 0 (hmem i hi)

/-- Claim C3, counterexample to the claim as stated: with 5 frames and a
model response of `"100"` (one out-of-range index), the out-of-range value
is discarded only *after* padding, so the result is `[0, 1]` — two entries,
not the claimed three (discarding before padding would have produced
`[0, 1, 2]`). -/
theorem top_frame_normalization_cex :
    select_top_frames 5 3 (Except.ok ("100".data)) = Except.ok [0, 1] := by decide

/-- Claim C3 (corrected): for more than 3 frames the normalisation parses
the comma-separated non-negative integers, pads with unused-so-far indices
(ascending) when fewer than 3 were parsed, truncates to the first 3 when
more were parsed, and only *then* discards out-of-range values (falling
back to the first `min(3, n)` positions when none remains) — so the result
always has at most 3 (and at least 1) in-range entries, but can have fewer
than 3 when an out-of-range value survives padding or truncation; zero
parsed integers yield `[0, 1, 2]`, more than 3 parsed in-range indices
yield exactly the first 3, and one parsed in-range index is padded with
the 2 smallest unused indices. -/
theorem top_frame_normalization_spec :
    (∀ (n : Nat) (p : List Nat), 3 < n →
      (select_top_frames_norm n 3 p).length ≤ 3 ∧
      select_top_frames_norm n 3 p ≠ [] ∧
      (∀ x ∈ select_top_frames_norm n 3 p, x < n)) ∧
    (∀ n : Nat, 3 < n → select_top_frames_norm n 3 [] = [0, 1, 2]) ∧
    (∀ (n : Nat) (p : List Nat), 3 < n → 3 < p.length →
      (∀ x ∈ p.take 3, x < n) → select_top_frames_norm n 3 p = p.take 3) ∧
    select_top_frames 10 3 (Except.ok ("4".data)) = Except.ok [4, 0, 1] ∧
    select_top_frames 5 3 (Except.ok ("".data)) = Except.ok [0, 1, 2] := by
  refine ⟨?_, ?_, ?_, by decide, by decide⟩
  · intro n p hn
    exact ⟨select_top_frames_norm_length n 3 p,
      select_top_frames_norm_ne_nil (by omega) (by omega) p,
      fun x hx => select_top_frames_norm_mem x hx⟩
  · intro n hn
    have hpad := padIndices_nil_eq n (by omega)
    have hfil : List.filter (fun idx => decide (idx < n)) [0, 1, 2] = [0, 1, 2] := by
      have h0 : decide (0 < n) = true := decide_eq_true (by omega)
      have h1 : decide (1 < n) = true := decide_eq_true (by omega)
      have h2 : decide (2 < n) = true := decide_eq_true (by omega)
      simp [List.filter, h0, h1, h2]
    simp [select_top_frames_norm, keepValid, hpad, hfil]
  · intro n p hn hp hmem
    have hne : p.take 3 ≠ [] := by
      have hlen : (p.take 3).length = 3 := by
        rw [List.length_take]
        omega
      intro habs
      rw [habs] at hlen
      simp at hlen
    have hfil : List.filter (fun idx => decide (idx < n)) (p.take 3) = p.take 3 :=
      List.filter_eq_self.mpr fun a ha => decide_eq_true (hmem a ha)
    have hlen3 : ¬ p.length = 3 := by omega
    have hlt3 : ¬ p.length < 3 := by omega
    simp only [select_top_frames_norm, keepValid, hlen3, hlt3, if_false, hfil,
      isEmpty_false_of_ne_nil hne, Bool.false_eq_true, List.take_take]
    simp

/-- Witness for `top_frame_normalization_spec`: five parsed in-range
indices are truncated to the first three. -/
theorem top_frame_normalization_spec_witness :
    select_top_frames_norm 7 3 [5, 0, 6, 2, 1] = [5, 0, 6] :=
  top_frame_normalization_spec.2.2.1 7 [5, 0, 6, 2, 1] (by decide) (by decide)
    (by decide)

/-- Claim C8, counterexample to the claim as stated: a model response
repeating index 1 yields `top_frames` with a duplicated element, so
`topFrames` is not duplicate-free for every model response. -/
theorem top_frames_subset_cex :
    top_frames_node [10, 11, 12, 13, 14] (Except.ok ("1,1".data)) =
      Except.ok [11, 11, 10] ∧
    ¬ ([11, 11, 10] : List Nat).Nodup := by
  exact ⟨by decide, by decide⟩

/-- Claim C8 (corrected): after TopFrameSelection, `topFrames` has length
at most 3 and every element is a member of `sampledFrames`, for every
possible model response — but elements can repeat when the response
repeats an index. -/
theorem top_frames_subset_spec (frames : List Frame)
    (call : Except PyErr (List Char)) (tf : List Frame)
    (h : top_frames_node frames call = Except.ok tf) :
    tf.length ≤ 3 ∧ ∀ x ∈ tf, x ∈ frames :=
  ⟨(top_frames_node_ok h).2.1, (top_frames_node_ok h).2.2⟩

/-- Witness for `top_frames_subset_spec` at the duplicated-response
input. -/
theorem top_frames_subset_spec_witness :
    ([11, 11, 10] : List Nat).length ≤ 3 ∧
    ∀ x ∈ ([11, 11, 10] : List Nat), x ∈ [10, 11, 12, 13, 14] :=
  top_frames_subset_spec [10, 11, 12, 13, 14] (Except.ok ("1,1".data))
    [11, 11, 10] (by decide)

/-! ### C7: frame extraction -/

theorem sampleLoop_isOk {interval maxFrames : Nat} (hk : interval ≠ 0) :
    ∀ (l : List Frame) (idx saved : Nat),
      ∃ r, sampleLoop interval maxFrames idx saved l = Except.ok r := by
  intro l
  induction l with
  | nil => intro idx saved; exact ⟨[], rfl⟩
  | cons f rest ih =>
    intro idx saved
    by_cases hs : maxFrames ≤ saved
    · exact ⟨[], by simp [sampleLoop, hs]⟩
    · by_cases hm : idx % interval = 0
      · obtain ⟨r, hr⟩ := ih (idx + 1) (saved + 1)
        exact ⟨f :: r, by simp [sampleLoop, hs, hk, hm, hr]⟩
      · obtain ⟨r, hr⟩ := ih (idx + 1) saved
        exact ⟨r, by simp [sampleLoop, hs, hk, hm, hr]⟩

theorem sampleLoop_sublist {interval maxFrames : Nat} :
    ∀ (l : List Frame) (idx saved : Nat) (r : List Frame),
      sampleLoop interval maxFrames idx saved l = Except.ok r → r.Sublist l := by
  intro l
  induction l with
  | nil =>
    intro idx saved r h
    injection h with h'
    subst h'
    exact List.nil_sublist _
  | cons f rest ih =>
    intro idx saved r h
    simp only [sampleLoop] at h
    split at h
    next =>
      injection h with h'
      subst h'
      exact List.nil_sublist _
    next =>
      split at h
      next => exact absurd h (by simp)
      next =>
        split at h
        next =>
          split at h
          next l' heq =>
            injection h with h'
            subst h'
            exact List.Sublist.cons₂ f (ih _ _ _ heq)
          next e heq => exact absurd h (by simp)
        next => exact List.Sublist.cons f (ih _ _ _ h)

theorem sampleLoop_length {interval maxFrames : Nat} :
    ∀ (l : List Frame) (idx saved : Nat) (r : List Frame),
      sampleLoop interval maxFrames idx saved l = Except.ok r →
      r.length ≤ maxFrames - saved := by
  intro l
  induction l with
  | nil =>
    intro idx saved r h
    injection h with h'
    subst h'
    simp
  | cons f rest ih =>
    intro idx saved r h
    simp only [sampleLoop] at h
    split at h
    next =>
      injection h with h'
      subst h'
      simp
    next hns =>
      split at h
      next => exact absurd h (by simp)
      next =>
        split at h
        next =>
          split at h
          next l' heq =>
            injection h with h'
            subst h'
            have := ih _ _ _ heq
            simp only [List.length_cons]
            omega
          next e heq => exact absurd h (by simp)
        next => exact ih _ _ _ h

theorem sampleLoop_nonempty {interval maxFrames : Nat} (hk : interval ≠ 0)
    (hm : 0 < maxFrames) :
    ∀ (f : Frame) (rest r : List Frame),
      sampleLoop interval maxFrames 0 0 (f :: rest) = Except.ok r → r ≠ [] := by
  intro f rest r h
  simp only [sampleLoop] at h
  rw [if_neg (by omega), if_neg hk, if_pos (Nat.zero_mod _)] at h
  split at h
  next l' heq =>
    injection h with h'
    subst h'
    simp
  next e heq => exact absurd h (by simp)

theorem download_ok (duration : Option Nat) (maxDur : Nat) (frames : List Frame)
    (fps : ℚ) (rate : Nat) (hd : durationExceedsMax duration maxDur = false)
    (hne : frames ≠ []) (hk : frameInterval fps rate ≠ 0) :
    ∃ l, download_and_sample_frames duration maxDur frames fps rate true 15 =
        Except.ok l ∧ l ≠ [] ∧ l.length ≤ 15 ∧ l.Sublist frames := by
  obtain ⟨r, hr⟩ := @sampleLoop_isOk (frameInterval fps rate) 15 hk frames 0 0
  have hsub := sampleLoop_sublist frames 0 0 r hr
  have hlen := sampleLoop_length frames 0 0 r hr
  obtain ⟨f, rest, rfl⟩ : ∃ f rest, frames = f :: rest := by
    cases frames with
    | nil => exact absurd rfl hne
    | cons a t => exact ⟨a, t, rfl⟩
  have hrne := sampleLoop_nonempty hk (by omega) f rest r hr
  refine ⟨r, ?_, hrne, by omega, hsub⟩
  simp [download_and_sample_frames, hd, sample_frames, hr, hrne,
    isEmpty_false_of_ne_nil hrne]

/-- Claim C7, counterexample to the claim as stated: a video within the
duration limit with one decodable frame but a reported fps below 1 (here
`0.5`, with sample rate 1) makes both `int(fps * rate)` and `int(fps)`
zero, so the sampling loop divides by zero instead of returning a
non-empty frame list. -/
theorem frame_extraction_cex :
    download_and_sample_frames none 300 [7] halfQ 1 true 15 =
      Except.error VideoErr.zeroInterval := by decide

/-- Claim C7 (corrected): a reported duration above the maximum fails
fatally with `durationExceeded` before any frame is read — and, in the
workflow, before any VisionModel call, with the trace stopping at
FrameExtraction; zero decodable frames fail fatally with `noFrames`;
otherwise, provided the computed sampling interval is non-zero (it is zero
only when fps·rate and fps both truncate to 0), the stage returns a
non-empty chronological subsequence of at most 15 frames. -/
theorem frame_extraction_spec :
    (∀ (duration : Option Nat) (maxDur : Nat) (frames : List Frame) (fps : ℚ)
        (rate : Nat) (opens : Bool) (d : Nat),
      duration = some d → maxDur < d →
      download_and_sample_frames duration maxDur frames fps rate opens 15 =
        Except.error VideoErr.durationExceeded) ∧
    (∀ (rd : List Char → Option ℚ) (st : Settings) (c : Collab) (d : Nat),
      c.duration = some d → st.maxVideoDuration < d →
      run_workflow rd st c =
        ([Stage.frameExtraction],
         Except.error (Fail.video VideoErr.durationExceeded))) ∧
    (∀ (duration : Option Nat) (maxDur : Nat) (fps : ℚ) (rate : Nat),
      durationExceedsMax duration maxDur = false →
      download_and_sample_frames duration maxDur [] fps rate true 15 =
        Except.error VideoErr.noFrames) ∧
    (∀ (duration : Option Nat) (maxDur : Nat) (frames : List Frame) (fps : ℚ)
        (rate : Nat),
      durationExceedsMax duration maxDur = false → frames ≠ [] →
      frameInterval fps rate ≠ 0 →
      ∃ l, download_and_sample_frames duration maxDur frames fps rate true 15 =
          Except.ok l ∧ l ≠ [] ∧ l.length ≤ 15 ∧ l.Sublist frames) := by
  have hexceed : ∀ (duration : Option Nat) (maxDur : Nat) (frames : List Frame)
      (fps : ℚ) (rate : Nat) (opens : Bool) (d : Nat),
      duration = some d → maxDur < d →
      download_and_sample_frames duration maxDur frames fps rate opens 15 =
        Except.error VideoErr.durationExceeded := by
    intro duration maxDur frames fps rate opens d h1 h2
    subst h1
    have hd0 : (d == 0) = false := beq_eq_false_iff_ne.mpr (by omega)
    simp [download_and_sample_frames, durationExceedsMax, hd0, h2]
  refine ⟨hexceed, ?_, ?_, ?_⟩
  · intro rd st c d h1 h2
    have hdl := hexceed c.duration st.maxVideoDuration c.videoFrames c.fps
      st.frameSampleRate c.opens d h1 h2
    simp only [run_workflow, hdl]
  · intro duration maxDur fps rate hd
    simp [download_and_sample_frames, hd, sample_frames, sampleLoop]
  · intro duration maxDur frames fps rate hd hne hk
    exact download_ok duration maxDur frames fps rate hd hne hk

/-- Witness for `frame_extraction_spec`: a 10s video with 5 decodable
frames at fps 1 and sample rate 2 yields a non-empty sampled subsequence
of at most 15 frames. -/
theorem frame_extraction_spec_witness :
    ∃ l, download_and_sample_frames (some 10) 300 [1, 2, 3, 4, 5] 1 2 true 15 =
        Except.ok l ∧ l ≠ [] ∧ l.length ≤ 15 ∧ l.Sublist [1, 2, 3, 4, 5] :=
  frame_extraction_spec.2.2.2 (some 10) 300 [1, 2, 3, 4, 5] 1 2 (by decide)
    (by decide) (by decide)

/-! ### C4: retry and backoff policy -/

/-- Claim C4, counterexample to the claim as stated: in Enhancement a
failure that is *not* quota-classified is not retried at all — one call is
made and no delay is slept, although the claim requires up to 3 attempts
regardless of quota classification. -/
theorem retry_backoff_cex :
    (generate_enhanced_shot rdNone (fun _ => Except.error boomErr)).calls = 1 ∧
    (generate_enhanced_shot rdNone (fun _ => Except.error boomErr)).sleeps = [] := by
  exact ⟨by decide, by decide⟩

/-- Claim C4 (corrected): in BestFrameSelection every failure before the
final attempt is retried — quota-classified or not — up to 3 attempts,
sleeping the provider-suggested delay when quota-classified with a truthy
suggestion and `5s × attemptNumber` otherwise; in Enhancement only
quota-classified failures are retried (up to 3 attempts, with the truthy
provider-suggested delay, else `20s × attemptNumber`), and a non-quota
failure aborts the style's attempts immediately. -/
theorem retry_backoff_spec :
    (∀ (rd : List Char → Option ℚ) (e0 e1 : PyErr) (t : List Char),
      (select_best_frame rd (sbfOracle e0 e1 (Except.ok t)) 3).calls = 3 ∧
      (select_best_frame rd (sbfOracle e0 e1 (Except.ok t)) 3).sleeps =
        [bfDelay rd e0 0, bfDelay rd e1 1]) ∧
    (∀ (rd : List Char → Option ℚ) (e0 e1 e2 : PyErr),
      (select_best_frame rd (sbfOracle e0 e1 (Except.error e2)) 3).calls = 3 ∧
      (select_best_frame rd (sbfOracle e0 e1 (Except.error e2)) 3).sleeps =
        [bfDelay rd e0 0, bfDelay rd e1 1] ∧
      (select_best_frame rd (sbfOracle e0 e1 (Except.error e2)) 3).res =
        Except.error (GeminiErr.requestFailed e2 (is_quota_error rd e2).1
          (is_quota_error rd e2).2)) ∧
    (∀ (rd : List Char → Option ℚ) (e0 e1 : PyErr) (b : Bytes),
      (is_quota_error rd e0).1 = true → (is_quota_error rd e1).1 = true →
      (generate_enhanced_shot rd (gesOracle e0 e1 (Except.ok b))).calls = 3 ∧
      (generate_enhanced_shot rd (gesOracle e0 e1 (Except.ok b))).sleeps =
        [enhDelay rd e0 0, enhDelay rd e1 1]) ∧
    (∀ (rd : List Char → Option ℚ) (e : PyErr) (atts : Nat → Except PyErr Bytes),
      atts 0 = Except.error e → (is_quota_error rd e).1 = false →
      (generate_enhanced_shot rd atts).calls = 1 ∧
      (generate_enhanced_shot rd atts).sleeps = [] ∧
      (generate_enhanced_shot rd atts).res =
        Except.error (GeminiErr.requestFailed e false none)) := by
  refine ⟨?_, ?_, ?_, ?_⟩
  · intro rd e0 e1 t
    constructor <;>
      simp [select_best_frame, sbfLoop, sbfOracle, bfDelay]
  · intro rd e0 e1 e2
    refine ⟨?_, ?_, ?_⟩ <;>
      simp [select_best_frame, sbfLoop, sbfOracle, bfDelay]
  · intro rd e0 e1 b h0 h1
    constructor <;>
      simp [generate_enhanced_shot, gesLoop, gesOracle, enhDelay, h0, h1]
  · intro rd e atts h0 hq
    have hfull := not_quota_none rd e hq
    refine ⟨?_, ?_, ?_⟩ <;>
      simp [generate_enhanced_shot, gesLoop, h0, hfull]

/-- Witness for `retry_backoff_spec`: two quota failures with a parsed
7-second suggested delay are retried with exactly that delay, and the
third attempt succeeds. -/
theorem retry_backoff_spec_witness :
    (generate_enhanced_shot rdSeven (gesOracle quotaErr quotaErr (Except.ok 9))).calls = 3 ∧
    (generate_enhanced_shot rdSeven (gesOracle quotaErr quotaErr (Except.ok 9))).sleeps =
      [7, 7] :=
  retry_backoff_spec.2.2.1 rdSeven quotaErr quotaErr 9 (by decide) (by decide)

/-! ### C5: best-frame selection fallback -/

theorem best_frame_node_total (rd : List Char → Option ℚ) (topFrames : List Frame)
    (attempts : Nat → Except PyErr (List Char)) (h : topFrames ≠ []) :
    ∃ v, best_frame_node rd topFrames attempts = Except.ok v ∧ v ∈ topFrames := by
  have hlen : 0 < topFrames.length := List.length_pos.mpr h
  simp only [best_frame_node, isEmpty_false_of_ne_nil h, Bool.false_eq_true,
    if_false]
  by_cases hle : topFrames.length ≤
      (match (select_best_frame rd attempts 3).res with
        | .ok n => n
        | .error _ => 0)
  · exact ⟨topFrames.getD 0 0, by rw [if_pos hle], getD_mem _ _ _ hlen⟩
  · refine ⟨_, by rw [if_neg hle], getD_mem _ _ _ (by omega)⟩

/-- Claim C5 (confirmed): given a non-empty `topFrames`, the
BestFrameSelection node never fails; if all 3 attempts fail, or the parsed
index is out of range, it falls back to `topFrames[0]`; and if the first
two attempts fail and the third succeeds with an in-range index `i`, the
result is `topFrames[i]` with no fallback. -/
theorem best_frame_fallback_spec (rd : List Char → Option ℚ)
    (topFrames : List Frame) (attempts : Nat → Except PyErr (List Char))
    (h : topFrames ≠ []) :
    (∃ v, best_frame_node rd topFrames attempts = Except.ok v ∧ v ∈ topFrames) ∧
    ((∀ i, i < 3 → ∃ e, attempts i = Except.error e) →
      best_frame_node rd topFrames attempts = Except.ok (topFrames.getD 0 0)) ∧
    (∀ nn, (select_best_frame rd attempts 3).res = Except.ok nn →
      topFrames.length ≤ nn →
      best_frame_node rd topFrames attempts = Except.ok (topFrames.getD 0 0)) ∧
    (∀ (e0 e1 : PyErr) (t : List Char) (i : Nat),
      attempts 0 = Except.error e0 → attempts 1 = Except.error e1 →
      attempts 2 = Except.ok t →
      extract_first_integer (stripSpaces t) = some i → i < topFrames.length →
      best_frame_node rd topFrames attempts = Except.ok (topFrames.getD i 0)) := by
  have hlen : 0 < topFrames.length := List.length_pos.mpr h
  refine ⟨best_frame_node_total rd topFrames attempts h, ?_, ?_, ?_⟩
  · intro hfail
    obtain ⟨e0, h0⟩ := hfail 0 (by omega)
    obtain ⟨e1, h1⟩ := hfail 1 (by omega)
    obtain ⟨e2, h2⟩ := hfail 2 (by omega)
    simp [best_frame_node, select_best_frame, sbfLoop, h0, h1, h2,
      isEmpty_false_of_ne_nil h, hlen]
  · intro nn hres hle
    simp [best_frame_node, hres, isEmpty_false_of_ne_nil h, hle]
  · intro e0 e1 t i h0 h1 h2 hparse hi
    have hni : ¬ topFrames.length ≤ i := by omega
    simp [best_frame_node, select_best_frame, sbfLoop, h0, h1, h2, hparse,
      isEmpty_false_of_ne_nil h, hni]

/-- Witness for `best_frame_fallback_spec`: two failures, then the reply
`"2"`, select the third of three top frames. -/
theorem best_frame_fallback_spec_witness :
    best_frame_node rdNone [4, 5, 6] attsTwoFailOk = Except.ok 6 :=
  (best_frame_fallback_spec rdNone [4, 5, 6] attsTwoFailOk (by decide)).2.2.2
    quotaErr quotaErr ("2".data) 2 (by decide) (by decide) (by decide) (by decide)
    (by decide)

/-! ### C6: segmentation fallback -/

/-- Claim C6 (confirmed): the primary Gemini segmentation is attempted
exactly once; on any failure the rembg fallback runs exactly once on the
same source image and its output is used; if the fallback also fails the
stage fails fatally with an error carrying both underlying errors. -/
theorem segmentation_fallback_spec (rd : List Char → Option ℚ) (bf : Frame)
    (primary : Frame → Nat → Except PyErr Bytes)
    (rembg : Frame → Except SegErr Bytes) :
    (segmentation_node rd bf primary rembg).2.1 = 1 ∧
    (∀ b, primary bf 0 = Except.ok b →
      segmentation_node rd bf primary rembg = (Except.ok b, 1, 0)) ∧
    (∀ e, primary bf 0 = Except.error e →
      (segmentation_node rd bf primary rembg).2.2 = 1 ∧
      (∀ rb, rembg bf = Except.ok rb →
        (segmentation_node rd bf primary rembg).1 = Except.ok rb) ∧
      (∀ se, rembg bf = Except.error se →
        (segmentation_node rd bf primary rembg).1 =
          Except.error (Fail.segBoth
            (GeminiErr.requestFailed e (is_quota_error rd e).1
              (is_quota_error rd e).2) se))) := by
  refine ⟨?_, ?_, ?_⟩
  · rcases hp : primary bf 0 with e | b
    · rcases hr : rembg bf with se | rb <;>
        simp [segmentation_node, segment_product, segLoop, hp, hr]
    · simp [segmentation_node, segment_product, segLoop, hp]
  · intro b hp
    simp [segmentation_node, segment_product, segLoop, hp]
  · intro e hp
    refine ⟨?_, ?_, ?_⟩
    · rcases hr : rembg bf with se | rb <;>
        simp [segmentation_node, segment_product, segLoop, hp, hr]
    · intro rb hr
      simp [segmentation_node, segment_product, segLoop, hp, hr]
    · intro se hr
      simp [segmentation_node, segment_product, segLoop, hp, hr]

/-- Witness for `segmentation_fallback_spec`: a failing primary call falls
back to rembg applied to the same source frame. -/
theorem segmentation_fallback_spec_witness :
    ((segmentation_node rdNone 3 (fun _ _ => Except.error boomErr)
        (fun f => Except.ok (f + 100))).2.2 = 1) ∧
    ((segmentation_node rdNone 3 (fun _ _ => Except.error boomErr)
        (fun f => Except.ok (f + 100))).1 = Except.ok 103) := by
  have hspec := segmentation_fallback_spec rdNone 3
    (fun _ _ => Except.error boomErr) (fun f => Except.ok (f + 100))
  have h3 := hspec.2.2 boomErr rfl
  exact ⟨h3.1, h3.2.1 103 rfl⟩

/-! ### C2: enhancement always yields exactly two shots -/

theorem enhStep_le (genRes : Style → Except GeminiErr Bytes) :
    ∀ (styles : List Style) (acc : List Shot × List Style),
      acc.1.length ≤ 2 → (styles.foldl (enhStep genRes) acc).1.length ≤ 2 := by
  intro styles
  induction styles with
  | nil => intro acc h; exact h
  | cons st rest ih =>
    intro acc h
    rw [List.foldl_cons]
    apply ih
    simp only [enhStep]
    split
    next => exact h
    next hlt =>
      split
      next => simp; omega
      next => exact h

theorem padWhile_two (sb : Bytes) :
    ∀ shots : List Shot, shots.length ≤ 2 → (padWhile sb 2 shots).length = 2 := by
  intro shots h
  match shots with
  | [] => simp [padWhile]
  | [a] => simp [padWhile]
  | a :: b :: r =>
    have : r = [] := by
      simp only [List.length_cons] at h
      exact List.eq_nil_of_length_eq_zero (by omega)
    subst this
    simp [padWhile]

theorem enhancement_node_len (rd : List Char → Option ℚ) (sb : Bytes)
    (gen : Style → Nat → Except PyErr Bytes) :
    (enhancement_node rd sb gen).1.length = 2 := by
  simp only [enhancement_node]
  exact padWhile_two sb _
    (enhStep_le (fun s => (generate_enhanced_shot rd (gen s)).res) _ ([], [])
      (by simp))

/-- Claim C2 (confirmed): with the segmented image present, Enhancement
never fails and always returns exactly 2 shots; styles are tried in the
order studio, lifestyle, creative, stopping once 2 shots exist; a failing
style is skipped without propagating; fewer than 2 generated shots are
padded by copying the first successful shot — or the segmented image when
none succeeded — so that, in particular, when only lifestyle succeeds the
result is the lifestyle shot plus one duplicate of it. -/
theorem enhancement_always_two_spec (rd : List Char → Option ℚ) (sb : Bytes)
    (gen : Style → Nat → Except PyErr Bytes) :
    ((enhancement_node rd sb gen).1.length = 2) ∧
    (∀ b1 b2,
      (generate_enhanced_shot rd (gen Style.studio)).res = Except.ok b1 →
      (generate_enhanced_shot rd (gen Style.lifestyle)).res = Except.ok b2 →
      enhancement_node rd sb gen =
        ([(EPath.style Style.studio, b1), (EPath.style Style.lifestyle, b2)],
         [Style.studio, Style.lifestyle])) ∧
    (∀ g1 b g3,
      (generate_enhanced_shot rd (gen Style.studio)).res = Except.error g1 →
      (generate_enhanced_shot rd (gen Style.lifestyle)).res = Except.ok b →
      (generate_enhanced_shot rd (gen Style.creative)).res = Except.error g3 →
      enhancement_node rd sb gen =
        ([(EPath.style Style.lifestyle, b), (EPath.fallbackCopy 2, b)],
         [Style.studio, Style.lifestyle, Style.creative])) ∧
    (∀ g1 g2 g3,
      (generate_enhanced_shot rd (gen Style.studio)).res = Except.error g1 →
      (generate_enhanced_shot rd (gen Style.lifestyle)).res = Except.error g2 →
      (generate_enhanced_shot rd (gen Style.creative)).res = Except.error g3 →
      enhancement_node rd sb gen =
        ([(EPath.fallbackCopy 1, sb), (EPath.fallbackCopy 2, sb)],
         [Style.studio, Style.lifestyle, Style.creative])) := by
  refine ⟨enhancement_node_len rd sb gen, ?_, ?_, ?_⟩
  · intro b1 b2 hs hl
    simp [enhancement_node, enhanceStyles, enhStep, hs, hl, padWhile]
  · intro g1 b g3 hs hl hc
    simp [enhancement_node, enhanceStyles, enhStep, hs, hl, hc, padWhile]
  · intro g1 g2 g3 hs hl hc
    simp [enhancement_node, enhanceStyles, enhStep, hs, hl, hc, padWhile]

/-- Witness for `enhancement_always_two_spec`: studio and creative fail on
every attempt, lifestyle succeeds — the result is the lifestyle shot plus
one fallback duplicate of it. -/
theorem enhancement_always_two_spec_witness :
    enhancement_node rdNone 77 genLifeOnly =
      ([(EPath.style Style.lifestyle, 42), (EPath.fallbackCopy 2, 42)],
       [Style.studio, Style.lifestyle, Style.creative]) :=
  (enhancement_always_two_spec rdNone 77 genLifeOnly).2.2.1
    (GeminiErr.requestFailed boomErr false none) 42
    (GeminiErr.requestFailed boomErr false none) (by decide) (by decide)
    (by decide)

/-! ### C1: pipeline state machine -/

theorem select_top_frames_total {n : Nat} (hn : n ≠ 0) (t : List Char) :
    ∃ inds, select_top_frames n 3 (Except.ok t) = Except.ok inds := by
  simp only [select_top_frames, hn]
  by_cases hle : n ≤ 3 <;> simp [hle]

theorem top_frames_node_total {frames : List Frame} (h : frames ≠ [])
    (t : List Char) :
    ∃ tf, top_frames_node frames (Except.ok t) = Except.ok tf := by
  obtain ⟨inds, hinds⟩ :=
    select_top_frames_total (show frames.length ≠ 0 by
      simpa [List.length_eq_zero] using h) t
  exact ⟨inds.map fun i => frames.getD i 0,
    by simp [top_frames_node, isEmpty_false_of_ne_nil h, hinds]⟩

theorem identify_node_total {tf : List Frame} (hne : tf ≠ []) (t : List Char)
    (ht : stripSpaces t ≠ []) :
    identify_node tf (Except.ok t) = Except.ok (stripSpaces t) := by
  simp [identify_node, isEmpty_false_of_ne_nil hne, identify_product,
    isEmpty_false_of_ne_nil ht]

theorem top_frames_node_err {frames : List Frame} {call : Except PyErr (List Char)}
    {f : Fail} (h : top_frames_node frames call = Except.error f) :
    stageOf f = Stage.topFrameSelection := by
  simp only [top_frames_node] at h
  split at h
  next =>
    injection h with h'
    subst h'
    rfl
  next =>
    split at h
    next g heq =>
      injection h with h'
      subst h'
      rfl
    next inds heq => exact absurd h (by simp)

theorem identify_node_err {tf : List Frame} {call : Except PyErr (List Char)}
    {f : Fail} (h : identify_node tf call = Except.error f) :
    stageOf f = Stage.productIdentification := by
  simp only [identify_node] at h
  split at h
  next =>
    injection h with h'
    subst h'
    rfl
  next =>
    split at h
    next g heq =>
      injection h with h'
      subst h'
      rfl
    next nm heq => exact absurd h (by simp)

theorem best_frame_node_no_err {rd : List Char → Option ℚ} {tf : List Frame}
    {atts : Nat → Except PyErr (List Char)} {f : Fail} (hne : tf ≠ [])
    (h : best_frame_node rd tf atts = Except.error f) : False := by
  obtain ⟨v, hv, _⟩ := best_frame_node_total rd tf atts hne
  rw [hv] at h
  exact absurd h (by simp)

theorem segmentation_node_err {rd : List Char → Option ℚ} {bf : Frame}
    {primary : Frame → Nat → Except PyErr Bytes}
    {rembg : Frame → Except SegErr Bytes} {f : Fail}
    (h : (segmentation_node rd bf primary rembg).1 = Except.error f) :
    stageOf f = Stage.segmentation := by
  rcases hsp : segment_product rd (primary bf) 1 with ⟨res, pc⟩
  rcases res with g | b
  · rcases hr : rembg bf with se | rb
    · simp only [segmentation_node, hsp, hr] at h
      injection h with h'
      subst h'
      rfl
    · simp [segmentation_node, hsp, hr] at h
  · simp [segmentation_node, hsp] at h

theorem segmentation_node_total (rd : List Char → Option ℚ) {bf : Frame}
    {primary : Frame → Nat → Except PyErr Bytes}
    {rembg : Frame → Except SegErr Bytes}
    (h : (∃ b, primary bf 0 = Except.ok b) ∨ (∃ b, rembg bf = Except.ok b)) :
    ∃ sb, (segmentation_node rd bf primary rembg).1 = Except.ok sb := by
  rcases hp : primary bf 0 with e | b
  · rcases h with ⟨b, hb⟩ | ⟨b, hb⟩
    · rw [hp] at hb
      exact absurd hb (by simp)
    · exact ⟨b, by simp [segmentation_node, segment_product, segLoop, hp, hb]⟩
  · exact ⟨b, by simp [segmentation_node, segment_product, segLoop, hp]⟩

/-- Claim C1, counterexample to the claim as stated: a valid 4-second
video (duration ≤ maximum, four decodable frames) whose TopFrameSelection
model call fails drives the job to Failed at TopFrameSelection — so the
pipeline does not reach Completed for every such video, and
TopFrameSelection (like a ProductIdentification collaborator error) can
fail the job. -/
theorem pipeline_state_machine_cex :
    run_workflow rdNone ⟨1, 300⟩ cBad =
      ([Stage.frameExtraction, Stage.topFrameSelection],
       Except.error (Fail.topFrames (GeminiErr.wrapped boomErr))) ∧
    durationExceedsMax cBad.duration 300 = false ∧
    cBad.videoFrames ≠ [] := by
  refine ⟨by decide, by decide, by decide⟩

/-- Claim C1 (corrected): the six stages run sequentially in the fixed
order (the executed trace is always an initial segment of the full stage
list); when the duration gate passes, at least one frame decodes with a
non-zero sampling interval, the TopFrameSelection and ProductIdentification
model calls succeed (the latter with a non-empty trimmed name), and at
least one segmentation strategy succeeds, the pipeline reaches Completed
with a non-empty `productName`, a `bestFramePath` drawn from `topFrames`,
a segmented image and exactly 2 `enhancedShots`; and a job can fail only
at FrameExtraction, TopFrameSelection (collaborator error),
ProductIdentification (collaborator error or empty name), or Segmentation
(both strategies exhausted) — BestFrameSelection and Enhancement always
resolve via fallback. -/
theorem pipeline_state_machine_spec (rd : List Char → Option ℚ) (st : Settings)
    (c : Collab) :
    ((durationExceedsMax c.duration st.maxVideoDuration = false) →
      c.opens = true →
      c.videoFrames ≠ [] →
      frameInterval c.fps st.frameSampleRate ≠ 0 →
      (∃ t, c.topCall = Except.ok t) →
      (∃ t, c.identifyCall = Except.ok t ∧ stripSpaces t ≠ []) →
      (∀ f : Frame, (∃ b, c.segCalls f 0 = Except.ok b) ∨
        (∃ b, c.rembg f = Except.ok b)) →
      ∃ fs, run_workflow rd st c = (allStages, Except.ok fs) ∧
        fs.productName ≠ [] ∧
        fs.enhancedShots.length = 2 ∧
        fs.topFrames ≠ [] ∧ fs.topFrames.length ≤ 3 ∧
        (∀ x ∈ fs.topFrames, x ∈ fs.sampledFrames) ∧
        fs.bestFramePath ∈ fs.topFrames) ∧
    (∀ f, (run_workflow rd st c).2 = Except.error f →
      (stageOf f = Stage.frameExtraction ∨
       stageOf f = Stage.topFrameSelection ∨
       stageOf f = Stage.productIdentification ∨
       stageOf f = Stage.segmentation)) ∧
    (∃ rest, (run_workflow rd st c).1 ++ rest = allStages) := by
  refine ⟨?_, ?_, ?_⟩
  · intro hd hop hne hk htc hic hseg
    obtain ⟨l, hdl0, hlne, hllen, hlsub⟩ := download_ok c.duration
      st.maxVideoDuration c.videoFrames c.fps st.frameSampleRate hd hne hk
    have hdl : download_and_sample_frames c.duration st.maxVideoDuration
        c.videoFrames c.fps st.frameSampleRate c.opens 15 = Except.ok l := by
      rw [hop]
      exact hdl0
    obtain ⟨t, htc⟩ := htc
    obtain ⟨tf, htf0⟩ := top_frames_node_total hlne t
    have htf : top_frames_node l c.topCall = Except.ok tf := by
      rw [htc]
      exact htf0
    obtain ⟨htfne, htflen, htfmem⟩ := top_frames_node_ok htf
    obtain ⟨ti, hti, htine⟩ := hic
    have hid : identify_node tf c.identifyCall = Except.ok (stripSpaces ti) := by
      rw [hti]
      exact identify_node_total htfne ti htine
    obtain ⟨v, hbv, hvmem⟩ := best_frame_node_total rd tf c.bestCalls htfne
    obtain ⟨sb, hsg⟩ := segmentation_node_total rd (hseg v)
    refine ⟨⟨l, tf, stripSpaces ti, v, sb, (enhancement_node rd sb c.genCalls).1⟩,
      ?_, htine, enhancement_node_len rd sb c.genCalls, htfne, htflen, ?_, hvmem⟩
    · simp only [run_workflow, hdl, htf, hid, hbv, hsg]
    · intro x hx
      exact htfmem x hx
  · intro f hf
    rcases hdl : download_and_sample_frames c.duration st.maxVideoDuration
        c.videoFrames c.fps st.frameSampleRate c.opens 15 with e | frames
    · simp only [run_workflow, hdl] at hf
      injection hf with hf'
      subst hf'
      exact Or.inl rfl
    · rcases htf : top_frames_node frames c.topCall with f1 | tf
      · simp only [run_workflow, hdl, htf] at hf
        injection hf with hf'
        subst hf'
        exact Or.inr (Or.inl (top_frames_node_err htf))
      · rcases hid : identify_node tf c.identifyCall with f2 | name
        · simp only [run_workflow, hdl, htf, hid] at hf
          injection hf with hf'
          subst hf'
          exact Or.inr (Or.inr (Or.inl (identify_node_err hid)))
        · obtain ⟨v, hbv, _⟩ :=
            best_frame_node_total rd tf c.bestCalls (top_frames_node_ok htf).1
          rcases hsg : (segmentation_node rd v c.segCalls c.rembg).1 with f3 | sb
          · simp only [run_workflow, hdl, htf, hid, hbv, hsg] at hf
            injection hf with hf'
            subst hf'
            exact Or.inr (Or.inr (Or.inr (segmentation_node_err hsg)))
          · simp only [run_workflow, hdl, htf, hid, hbv, hsg] at hf
            exact absurd hf (by simp)
  · rcases hdl : download_and_sample_frames c.duration st.maxVideoDuration
        c.videoFrames c.fps st.frameSampleRate c.opens 15 with e | frames
    · exact ⟨[.topFrameSelection, .productIdentification, .bestFrameSelection,
        .segmentation, .enhancement], by simp [run_workflow, hdl, allStages]⟩
    · rcases htf : top_frames_node frames c.topCall with f1 | tf
      · exact ⟨[.productIdentification, .bestFrameSelection, .segmentation,
          .enhancement], by simp [run_workflow, hdl, htf, allStages]⟩
      · rcases hid : identify_node tf c.identifyCall with f2 | name
        · exact ⟨[.bestFrameSelection, .segmentation, .enhancement],
            by simp [run_workflow, hdl, htf, hid, allStages]⟩
        · obtain ⟨v, hbv, _⟩ :=
            best_frame_node_total rd tf c.bestCalls (top_frames_node_ok htf).1
          rcases hsg : (segmentation_node rd v c.segCalls c.rembg).1 with f3 | sb
          · exact ⟨[.enhancement],
              by simp [run_workflow, hdl, htf, hid, hbv, hsg, allStages]⟩
          · exact ⟨[], by simp [run_workflow, hdl, htf, hid, hbv, hsg, allStages]⟩

/-- Witness for `pipeline_state_machine_spec` on a fully successful
collaborator bundle. -/
theorem pipeline_state_machine_spec_witness :
    ∃ fs, run_workflow rdNone stDefault cGood = (allStages, Except.ok fs) ∧
      fs.productName ≠ [] ∧
      fs.enhancedShots.length = 2 ∧
      fs.topFrames ≠ [] ∧ fs.topFrames.length ≤ 3 ∧
      (∀ x ∈ fs.topFrames, x ∈ fs.sampledFrames) ∧
      fs.bestFramePath ∈ fs.topFrames :=
  (pipeline_state_machine_spec rdNone stDefault cGood).1 (by decide) rfl
    (by decide) (by decide) ⟨"0".data, rfl⟩ ⟨" Widget ".data, rfl, by decide⟩
    (fun f => Or.inl ⟨50, rfl⟩)
